import Mathlib

/-!
Verification of the incremental document-assembly engine of the Groqbook
generator (`src/main.py`).  The Python source is shallowly embedded: the
outline payload returned by `json.loads` is modelled by the mutual
inductives `Json` / `JsonEntries` (a JSON object is its insertion-ordered
entry list), the `Book` class by the structure `Book` (its dict of
per-title buffers by an insertion-ordered association list with
Python-dict update semantics), `GenerationStatistics` by a record over `ℚ`
and `ℕ` (with a companion `GenerationStatisticsB64` keeping the float
time fields at IEEE-754 binary64 precision for the rounding-sensitive
merge property), the streamed provider chunks consumed by `generate_section` by
`Chunk`, and the orchestrator `stream_section_content` by a state-passing
function returning the final book, statistics total, and an `Outcome`
(`ok` / `genFailed` for a raised `GenerationFailed` / `keyError` for a
dict `KeyError`).
-/

mutual
/-- A JSON value as returned by `json.loads`, restricted to the shapes the
program distinguishes: a string (`isinstance(content, str)`), an object
(`isinstance(content, dict)`), and any other JSON value (`jnum` stands for
all of number / bool / null / array, which every `isinstance` test in the
source treats alike). -/
inductive Json where
  | jstr (s : String)
  | jnum (n : Int)
  | jobj (entries : JsonEntries)
deriving DecidableEq

/-- The insertion-ordered entries of a JSON object, i.e. the items of the
Python dict `json.loads` produces for it. -/
inductive JsonEntries where
  | nil
  | cons (title : String) (value : Json) (rest : JsonEntries)
deriving DecidableEq
end

/-- Source `Book.flatten_structure` (main.py:160-166): pre-order list of every
title in the nested structure, recursing into dict-valued entries. -/
def flatten_structure : JsonEntries → List String
  | .nil => []
  | .cons title content rest =>
      (title :: (match content with
        | .jobj children => flatten_structure children
        | _ => [])) ++ flatten_structure rest

/-- Keys of a Python dict modelled as an association list. -/
def dictKeys (m : List (String × String)) : List String := m.map Prod.fst

/-- Python dict assignment `m[k] = v`: overwrite in place if `k` is already
a key, otherwise append at the end (insertion order). -/
def dictInsert (m : List (String × String)) (k v : String) : List (String × String) :=
  if k ∈ dictKeys m then m.map (fun p => if p.1 = k then (p.1, v) else p)
  else m ++ [(k, v)]

/-- Python dict lookup `m[k]`: `none` models a `KeyError`. -/
def dictGet (m : List (String × String)) (k : String) : Option String :=
  (m.find? (fun p => p.1 = k)).map Prod.snd

/-- Lookup `dictGet` with default `""`; used only where a `KeyError` is
unreachable because every looked-up title has a buffer. -/
def dictGetD (m : List (String × String)) (k : String) : String :=
  (dictGet m k).getD ""

/-- The dict comprehension of main.py:156,
`\x7btitle: "" for title in self.flatten_structure(structure)\x7d`. -/
def dictOfTitles (titles : List String) : List (String × String) :=
  titles.foldl (fun m t => dictInsert m t "") []

/-- The `Book` class (main.py:153-157): the parsed structure plus one
accumulated-text buffer per title (the `placeholders` dict of UI handles is
presentation-layer state and is not modelled). -/
structure Book where
  structure' : JsonEntries
  contents : List (String × String)
deriving DecidableEq

/-- Source `Book.__init__` applied to a dict `structure` (main.py:154-157). -/
def Book.init (s : JsonEntries) : Book :=
  ⟨s, dictOfTitles (flatten_structure s)⟩

/-- Source `Book.update_content` (main.py:168-170): `self.contents[title] +=
new_content`; `none` models the `KeyError` raised when `title` has no
buffer (the `display_content` call is presentation-only). -/
def update_content (b : Book) (title new_content : String) : Option Book :=
  if title ∈ dictKeys b.contents then
    some ⟨b.structure',
      b.contents.map (fun p => if p.1 = title then (p.1, p.2 ++ new_content) else p)⟩
  else none

/-- Python `str.strip()`: drop leading and trailing whitespace (for the
ASCII whitespace occurring here, `Char.isWhitespace` coincides with
Python's whitespace set).  The source only tests the result's truthiness,
i.e. whether any non-whitespace character remains. -/
def pyStrip (s : String) : String :=
  String.mk (((s.data.dropWhile Char.isWhitespace).reverse.dropWhile Char.isWhitespace).reverse)

/-- Source `Book.get_markdown_content` (main.py:195-205), with the buffer dict
passed explicitly: for each entry emit `'#' * level + ' ' + title` and the
buffer when `contents[title].strip()` is truthy, then recurse into dict
values at `level + 1`.  Every walked title has a buffer when called on the
book's own structure, so the `KeyError` of `self.contents[title]` is
unreachable and the lookup uses the `""` default. -/
def get_markdown_content (contents : List (String × String)) :
    JsonEntries → Nat → String
  | .nil, _ => ""
  | .cons title content rest, level =>
      (if pyStrip (dictGetD contents title) ≠ "" then
        String.mk (List.replicate level '#') ++ " " ++ title ++ "\n" ++
          dictGetD contents title ++ "\n\n"
      else "") ++
      (match content with
        | .jobj children => get_markdown_content contents children (level + 1)
        | _ => "") ++
      get_markdown_content contents rest level

/-- Source `Book.get_markdown_content()` with its default arguments
(main.py:195-197): the book's own structure at level 1. -/
def Book.markdown (b : Book) : String := get_markdown_content b.contents b.structure' 1

/-- The `GenerationStatistics` class (main.py:121-151).  Token counts are
naturals; the float-typed time fields are idealized as exact rationals,
which is adequate for every property below that does not depend on
rounding — the rounding-sensitive merge-associativity property is settled
against `GenerationStatisticsB64`, which keeps the time fields at their
source precision (IEEE-754 binary64). -/
structure GenerationStatistics where
  input_time : ℚ
  output_time : ℚ
  input_tokens : ℕ
  output_tokens : ℕ
  total_time : ℚ
  model_name : String
deriving Repr, DecidableEq

/-- The zeroed record `GenerationStatistics(model_name=...)` built from the
constructor defaults (main.py:122). -/
def GenerationStatistics.new (model_name : String) : GenerationStatistics :=
  ⟨0, 0, 0, 0, 0, model_name⟩

/-- Source `GenerationStatistics.get_input_speed` (main.py:130-131):
`input_tokens / input_time if input_time != 0 else 0`. -/
def GenerationStatistics.get_input_speed (s : GenerationStatistics) : ℚ :=
  if s.input_time ≠ 0 then (s.input_tokens : ℚ) / s.input_time else 0

/-- Source `GenerationStatistics.get_output_speed` (main.py:133-134). -/
def GenerationStatistics.get_output_speed (s : GenerationStatistics) : ℚ :=
  if s.output_time ≠ 0 then (s.output_tokens : ℚ) / s.output_time else 0

/-- Source `GenerationStatistics.add` (main.py:136-144): sums the five numeric
fields into `self`, leaving `self.model_name`; the `isinstance` guard
(`TypeError` otherwise) is enforced here by the argument type.  The float
`+=` on the time fields is idealized as exact addition; see
`GenerationStatisticsB64.add` for the binary64-faithful merge. -/
def GenerationStatistics.add (s other : GenerationStatistics) : GenerationStatistics :=
  ⟨s.input_time + other.input_time, s.output_time + other.output_time,
   s.input_tokens + other.input_tokens, s.output_tokens + other.output_tokens,
   s.total_time + other.total_time, s.model_name⟩

/-- The five numeric fields of a statistics record, in declaration order. -/
def GenerationStatistics.numerics (s : GenerationStatistics) : ℚ × ℚ × ℕ × ℕ × ℚ :=
  (s.input_time, s.output_time, s.input_tokens, s.output_tokens, s.total_time)

/-- A finite IEEE-754 binary64 value `m * 2^e` (sign omitted: the
statistics time fields are non-negative; overflow to infinity lies outside
the modelled range).  `m = 0` encodes zero; a normal double has
`2^52 ≤ m < 2^53`. -/
structure B64 where
  m : ℕ
  e : ℤ
deriving Repr, DecidableEq

/-- Number of binary digits of `n`, by fuel-bounded halving (the fuel `n`
itself always suffices, since at most `log2 n + 1 ≤ n` halvings occur for
`n ≥ 1`). -/
def bitsF : ℕ → ℕ → ℕ
  | 0, _ => 0
  | fuel + 1, n => if n = 0 then 0 else bitsF fuel (n / 2) + 1

/-- Number of binary digits of `n`. -/
def bits (n : ℕ) : ℕ := bitsF n n

/-- Round the integer `n` to a multiple of `2^k` — returning the
multiplier — to nearest, ties to even; for `k = 0`, `n` itself. -/
def roundDrop (n k : ℕ) : ℕ :=
  if k = 0 then n
  else
    let q := n / 2 ^ k
    let r := n % 2 ^ k
    let half := 2 ^ k / 2
    if r < half then q
    else if half < r then q + 1
    else if q % 2 = 0 then q else q + 1

/-- Round an exact non-negative value `S * 2^E` to 53 significant bits,
to nearest with ties to even — the IEEE-754 binary64 rounding step. -/
def normB64 (S : ℕ) (E : ℤ) : B64 :=
  if S = 0 then ⟨0, 0⟩
  else if bits S ≤ 53 then ⟨S, E⟩
  else
    let k := bits S - 53
    let q := roundDrop S k
    if bits q = 54 then ⟨q / 2, E + k + 1⟩ else ⟨q, E + k⟩

/-- IEEE-754 binary64 addition of non-negative finite doubles: the exact
sum, aligned to the smaller exponent, rounded to 53 significant bits.
This is the Python float `+` the source applies to the statistics time
fields. -/
def addB64 (x y : B64) : B64 :=
  normB64 (x.m * 2 ^ (x.e - min x.e y.e).toNat
           + y.m * 2 ^ (y.e - min x.e y.e).toNat) (min x.e y.e)

/-- The statistics record with its time fields at source precision
(binary64); `GenerationStatistics` above idealizes them as exact
rationals. -/
structure GenerationStatisticsB64 where
  input_time : B64
  output_time : B64
  input_tokens : ℕ
  output_tokens : ℕ
  total_time : B64
  model_name : String
deriving Repr, DecidableEq

/-- Merge of main.py:140-144 with the time fields at binary64 precision:
the float `+=` is IEEE-754 binary64 addition, the token `+=` integer
addition, `self.model_name` kept. -/
def GenerationStatisticsB64.add (s other : GenerationStatisticsB64) :
    GenerationStatisticsB64 :=
  ⟨addB64 s.input_time other.input_time, addB64 s.output_time other.output_time,
   s.input_tokens + other.input_tokens, s.output_tokens + other.output_tokens,
   addB64 s.total_time other.total_time, s.model_name⟩

/-- The five numeric fields of a binary64-precision statistics record, in
declaration order. -/
def GenerationStatisticsB64.numerics (s : GenerationStatisticsB64) :
    B64 × B64 × ℕ × ℕ × B64 :=
  (s.input_time, s.output_time, s.input_tokens, s.output_tokens, s.total_time)

/-- The usage record of a provider call: `\x7bprompt_time, completion_time,
prompt_tokens, completion_tokens, total_time\x7d`. -/
structure Usage where
  prompt_time : ℚ
  completion_time : ℚ
  prompt_tokens : ℕ
  completion_tokens : ℕ
  total_time : ℚ
deriving Repr, DecidableEq

/-- The statistics record `generate_section` builds from a usage payload
(main.py:283). -/
def statsOfUsage (u : Usage) : GenerationStatistics :=
  ⟨u.prompt_time, u.completion_time, u.prompt_tokens, u.completion_tokens,
   u.total_time, "llama3-8b-8192"⟩

/-- The `x_groq` extension object of a streamed chunk; `usage = none`
models a falsy `x_groq.usage` (main.py:279-282). -/
structure XGroq where
  usage : Option Usage
deriving Repr, DecidableEq

/-- One streamed provider chunk as read by `generate_section`
(main.py:275-284): `content = chunk.choices[0].delta.content` (`none` for
a `None` delta) and the optional `chunk.x_groq` extension. -/
structure Chunk where
  content : Option String
  x_groq : Option XGroq
deriving Repr, DecidableEq

/-- One event yielded by `generate_section`: a text chunk (`yield tokens`)
or a statistics record (`yield statistics`). -/
inductive SectionEvent where
  | textDelta (s : String)
  | usageReport (stats : GenerationStatistics)
deriving Repr, DecidableEq

/-- The loop body of `generate_section` (main.py:275-284) over the chunks
the provider delivers: `yield tokens` only when `tokens` is truthy (a
non-`None`, non-empty string), then `yield statistics` when `chunk.x_groq`
is present with a truthy `usage`. -/
def generate_section_events : List Chunk → List SectionEvent
  | [] => []
  | c :: rest =>
      (match c.content with
        | some s => if s ≠ "" then [SectionEvent.textDelta s] else []
        | none => []) ++
      (match c.x_groq with
        | some xg =>
            match xg.usage with
            | some u => [SectionEvent.usageReport (statsOfUsage u)]
            | none => []
        | none => []) ++
      generate_section_events rest

/-- One provider streaming call: the chunks delivered before the stream
either ends or the transport fails (`fails = true` models a
`GenerationFailed` exception raised after the listed chunks). -/
structure ProviderStream where
  chunks : List Chunk
  fails : Bool
deriving Repr, DecidableEq

/-- Source `generate_section` (main.py:261-284) as the consumer sees it: the
event sequence from the delivered chunks, plus whether iterating it ends
in a `GenerationFailed` exception. -/
def generate_section (p : ProviderStream) : List SectionEvent × Bool :=
  (generate_section_events p.chunks, p.fails)

/-- How a run of the orchestrator loop stops: normally, with a
`GenerationFailed` raised out of `generate_section`, or with a `KeyError`
from `update_content` (defensively modelled; unreachable when the walked
structure is the one the book was built from). -/
inductive Outcome where
  | ok
  | genFailed
  | keyError
deriving Repr, DecidableEq

/-- The inner `for chunk in content_stream` loop of
`stream_section_content` (main.py:344-349): statistics chunks are merged
into the running total (and re-rendered into the sidebar, not modelled),
text chunks appended to `title`'s buffer.  Returns the book and total at
the point the loop stops. -/
def processEvents (b : Book) (title : String) (total : GenerationStatistics) :
    List SectionEvent → Book × GenerationStatistics × Outcome
  | [] => (b, total, .ok)
  | .usageReport s :: rest => processEvents b title (total.add s) rest
  | .textDelta t :: rest =>
      match update_content b title t with
      | some b' => processEvents b' title total rest
      | none => (b, total, .keyError)

/-- Source `stream_section_content` (main.py:339-351), parameterised by the
provider's response `chunksOf` to each composed prompt: for each entry,
a string value drives one `generate_section(f"\x7btitle\x7d: \x7bcontent\x7d")` call
whose events are folded by `processEvents`, a dict value is recursed into,
and any other value is skipped; a raised exception stops the walk with the
book and total as mutated so far. -/
def stream_section_content (chunksOf : String → ProviderStream) :
    JsonEntries → Book → GenerationStatistics →
    Book × GenerationStatistics × Outcome
  | .nil, b, total => (b, total, .ok)
  | .cons title content rest, b, total =>
      match content with
      | .jstr desc =>
          let gs := generate_section (chunksOf (title ++ ": " ++ desc))
          match processEvents b title total gs.1 with
          | (b', t', .ok) =>
              if gs.2 then (b', t', .genFailed)
              else stream_section_content chunksOf rest b' t'
          | r => r
      | .jobj children =>
          match stream_section_content chunksOf children b total with
          | (b', t', .ok) => stream_section_content chunksOf rest b' t'
          | r => r
      | .jnum _ => stream_section_content chunksOf rest b total

/-- How the structuring phase of `generate_book` (main.py:332-335,356-357)
ends: a book built and stored in the session, the caught
`json.JSONDecodeError` (`st.error(...)`, the run's `StructureDecodeError`),
or an uncaught `AttributeError` from calling `.items()` on a non-dict
payload inside `Book.__init__`. -/
inductive DecodeOutcome where
  | decoded (book : Book)
  | structureDecodeError
  | attributeError
deriving DecidableEq

/-- The structure-decoding phase of `generate_book` (main.py:332-335):
the argument is `json.loads(book_structure)`, with `none` standing for a
payload that is not valid JSON (so `json.loads` raises the caught
`JSONDecodeError`); a valid JSON payload that is not an object reaches
`Book.__init__`, whose `structure.items()` call raises an uncaught
`AttributeError`. -/
def generate_book_decode (payload : Option Json) : DecodeOutcome :=
  match payload with
  | none => .structureDecodeError
  | some (.jobj entries) => .decoded (Book.init entries)
  | some _ => .attributeError

/-!
Spec-side definitions.  These follow the specification's vocabulary
(document order, leaf sections, tagged events) and are compared with the
source-side functions above by the theorems below.
-/

/-- Spec-side: document order — every title of the structure paired with
the heading level the serializer uses for it, depth-first in insertion
order, the entries of the outermost call at the given level. -/
def docOrder : JsonEntries → Nat → List (String × Nat)
  | .nil, _ => []
  | .cons title content rest, level =>
      (title, level) :: ((match content with
        | .jobj children => docOrder children (level + 1)
        | _ => []) ++ docOrder rest level)

/-- Spec-side: the flat-text contribution of one `(title, level)` pair of
`docOrder`: a heading of `level` hash marks and the title's buffer when
the buffer strips to something non-empty, nothing otherwise. -/
def markdownSegment (contents : List (String × String)) (p : String × Nat) : String :=
  if pyStrip (dictGetD contents p.1) ≠ "" then
    String.mk (List.replicate p.2 '#') ++ " " ++ p.1 ++ "\n" ++
      dictGetD contents p.1 ++ "\n\n"
  else ""

/-- Spec-side: the leaf `(title, description)` pairs of the structure in
depth-first insertion order — the sections eligible for generation. -/
def leafSections : JsonEntries → List (String × String)
  | .nil => []
  | .cons title (.jstr desc) rest => (title, desc) :: leafSections rest
  | .cons _ (.jnum _) rest => leafSections rest
  | .cons _ (.jobj children) rest => leafSections children ++ leafSections rest

/-- Spec-side: drive one section generation for each listed leaf
sequentially, folding each call's events into the book and the running
total; the walk stops at the first raised exception with the state as
mutated so far. -/
def runLeaves (chunksOf : String → ProviderStream) :
    List (String × String) → Book → GenerationStatistics →
    Book × GenerationStatistics × Outcome
  | [], b, total => (b, total, .ok)
  | (title, desc) :: rest, b, total =>
      let gs := generate_section (chunksOf (title ++ ": " ++ desc))
      match processEvents b title total gs.1 with
      | (b', t', .ok) =>
          if gs.2 then (b', t', .genFailed) else runLeaves chunksOf rest b' t'
      | r => r

/-- Spec-side: the text deltas of an event sequence, in order. -/
def eventDeltas (evs : List SectionEvent) : List String :=
  evs.filterMap (fun e => match e with | .textDelta s => some s | _ => none)

/-- Spec-side: the usage-report records of an event sequence, in order. -/
def eventUsages (evs : List SectionEvent) : List GenerationStatistics :=
  evs.filterMap (fun e => match e with | .usageReport s => some s | _ => none)

/-- Spec-side: the text a chunk contributes: its content when present and
non-empty, nothing for an absent or empty content. -/
def chunkText (c : Chunk) : Option String :=
  match c.content with
  | some s => if s ≠ "" then some s else none
  | none => none

/-- Spec-side: append `text` to every buffer entry keyed `title`. -/
def bookAppend (b : Book) (title text : String) : Book :=
  ⟨b.structure',
   b.contents.map (fun p => if p.1 = title then (p.1, p.2 ++ text) else p)⟩

/-- The outline of the specification's example scenario:
a leaf "A", and an internal "B" with leaves "C" and "D". -/
def egStructure : JsonEntries :=
  .cons "A" (.jstr "a")
    (.cons "B" (.jobj (.cons "C" (.jstr "c") (.cons "D" (.jstr "d") .nil))) .nil)

/-- Provider behaviour for the failure scenario: the call for leaf "A"
streams "hello" and completes; the call for leaf "C" streams "partial"
and then raises `GenerationFailed`; any other call yields nothing. -/
def egChunksOf : String → ProviderStream := fun prompt =>
  if prompt = "A: a" then ⟨[⟨some "hello", none⟩], false⟩
  else if prompt = "C: c" then ⟨[⟨some "partial", none⟩], true⟩
  else ⟨[], false⟩

/-- An outline with the title "A" at two different tree positions. -/
def dupStructure : JsonEntries :=
  .cons "A" (.jstr "a") (.cons "B" (.jobj (.cons "A" (.jstr "x") .nil)) .nil)

/-- A statistics record whose input time is the binary64 double nearest
0.1, namely `7205759403792794 * 2^-56`. -/
def egStatA : GenerationStatisticsB64 :=
  ⟨⟨7205759403792794, -56⟩, ⟨0, 0⟩, 0, 0, ⟨0, 0⟩, "llama3-8b-8192"⟩

/-- A statistics record whose input time is the binary64 double nearest
0.2, namely `7205759403792794 * 2^-55`. -/
def egStatB : GenerationStatisticsB64 :=
  ⟨⟨7205759403792794, -55⟩, ⟨0, 0⟩, 0, 0, ⟨0, 0⟩, "llama3-8b-8192"⟩

/-- A statistics record whose input time is the binary64 double nearest
0.3, namely `5404319552844595 * 2^-54`. -/
def egStatC : GenerationStatisticsB64 :=
  ⟨⟨5404319552844595, -54⟩, ⟨0, 0⟩, 0, 0, ⟨0, 0⟩, "llama3-8b-8192"⟩

/-!
Helper lemmas shared by the theorems below.
-/

lemma dictKeys_map (m : List (String × String))
    (g : String × String → String × String) (hg : ∀ p, (g p).1 = p.1) :
    dictKeys (m.map g) = dictKeys m := by
  simp only [dictKeys, List.map_map]
  exact List.map_congr_left fun p _ => hg p

lemma fst_if_update (k : String) (f : String → String) :
    ∀ p : String × String, ((if p.1 = k then (p.1, f p.2) else p) : String × String).1 = p.1 := by
  intro p; by_cases h : p.1 = k <;> simp [h]

lemma mem_dictKeys_dictInsert (m : List (String × String)) (k v t : String) :
    t ∈ dictKeys (dictInsert m k v) ↔ t ∈ dictKeys m ∨ t = k := by
  unfold dictInsert
  by_cases h : k ∈ dictKeys m
  · rw [if_pos h, dictKeys_map _ _ (fun p => by by_cases hp : p.1 = k <;> simp [hp])]
    exact ⟨Or.inl, fun h' => h'.elim id (fun ht => ht ▸ h)⟩
  · rw [if_neg h]
    simp [dictKeys]

lemma nodup_dictKeys_dictInsert (m : List (String × String)) (k v : String)
    (h : (dictKeys m).Nodup) : (dictKeys (dictInsert m k v)).Nodup := by
  unfold dictInsert
  by_cases hk : k ∈ dictKeys m
  · rwa [if_pos hk, dictKeys_map _ _ (fun p => by by_cases hp : p.1 = k <;> simp [hp])]
  · rw [if_neg hk]
    simp only [dictKeys, List.map_append] at *
    exact List.Nodup.append h (List.nodup_singleton k) (by simpa using hk)

lemma dictInsert_values (m : List (String × String)) (k : String)
    (h : ∀ p ∈ m, p.2 = "") : ∀ p ∈ dictInsert m k "", p.2 = "" := by
  unfold dictInsert
  intro p hp
  by_cases hk : k ∈ dictKeys m
  · rw [if_pos hk] at hp
    obtain ⟨q, hq, rfl⟩ := List.mem_map.1 hp
    by_cases h2 : q.1 = k
    · simp [h2]
    · simpa [h2] using h q hq
  · rw [if_neg hk] at hp
    rcases List.mem_append.1 hp with h1 | h1
    · exact h p h1
    · simp at h1; simp [h1]

lemma dictOfTitles_go (ts : List String) :
    ∀ m : List (String × String),
      ((dictKeys m).Nodup →
        (dictKeys (ts.foldl (fun acc t => dictInsert acc t "") m)).Nodup) ∧
      (∀ t, t ∈ dictKeys (ts.foldl (fun acc t => dictInsert acc t "") m) ↔
        t ∈ dictKeys m ∨ t ∈ ts) ∧
      ((∀ p ∈ m, p.2 = "") →
        ∀ p ∈ ts.foldl (fun acc t => dictInsert acc t "") m, p.2 = "") := by
  induction ts with
  | nil => intro m; simp
  | cons a ts ih =>
      intro m
      simp only [List.foldl_cons]
      obtain ⟨ih1, ih2, ih3⟩ := ih (dictInsert m a "")
      refine ⟨fun h => ih1 (nodup_dictKeys_dictInsert _ _ _ h), fun t => ?_,
        fun h => ih3 (dictInsert_values _ _ h)⟩
      rw [ih2 t, mem_dictKeys_dictInsert]
      simp only [List.mem_cons]
      tauto

lemma book_init_contents (s : JsonEntries) :
    (dictKeys (Book.init s).contents).Nodup ∧
    (∀ t, t ∈ dictKeys (Book.init s).contents ↔ t ∈ flatten_structure s) ∧
    (∀ p ∈ (Book.init s).contents, p.2 = "") := by
  obtain ⟨h1, h2, h3⟩ := dictOfTitles_go (flatten_structure s) []
  refine ⟨h1 (by simp [dictKeys]), fun t => ?_, h3 (by simp)⟩
  rw [Book.init, dictOfTitles] at *
  simpa [dictKeys] using h2 t

lemma join_cons (a : String) (l : List String) :
    String.join (a :: l) = a ++ String.join l := by
  apply String.ext
  simp [String.data_join, String.data_append]

lemma join_append (l₁ l₂ : List String) :
    String.join (l₁ ++ l₂) = String.join l₁ ++ String.join l₂ := by
  apply String.ext
  simp [String.data_join, String.data_append]

lemma bookAppend_empty (b : Book) (title : String) : bookAppend b title "" = b := by
  obtain ⟨s, m⟩ := b
  unfold bookAppend
  simp only [Book.mk.injEq, true_and]
  conv_rhs => rw [← List.map_id m]
  refine List.map_congr_left fun p _ => ?_
  by_cases h : p.1 = title
  · rw [if_pos h, String.append_empty]
    rfl
  · rw [if_neg h]
    rfl

lemma bookAppend_bookAppend (b : Book) (title x y : String) :
    bookAppend (bookAppend b title x) title y = bookAppend b title (x ++ y) := by
  obtain ⟨s, m⟩ := b
  unfold bookAppend
  simp only [Book.mk.injEq, true_and, List.map_map]
  refine List.map_congr_left fun p _ => ?_
  by_cases h : p.1 = title <;> simp [h, String.append_assoc]

lemma dictKeys_bookAppend (b : Book) (title x : String) :
    dictKeys (bookAppend b title x).contents = dictKeys b.contents :=
  dictKeys_map _ _ (fun p => by by_cases h : p.1 = title <;> simp [h])

lemma update_content_eq (b : Book) (title t : String)
    (h : title ∈ dictKeys b.contents) :
    update_content b title t = some (bookAppend b title t) := by
  unfold update_content bookAppend
  rw [if_pos h]

lemma dictGet_map_update (m : List (String × String)) (k : String)
    (f : String → String) :
    dictGet (m.map (fun p => if p.1 = k then (p.1, f p.2) else p)) k
      = (dictGet m k).map f := by
  induction m with
  | nil => rfl
  | cons p m ih =>
      by_cases h : p.1 = k
      · simp [dictGet, List.find?_cons, h]
      · simpa [dictGet, List.find?_cons, h] using ih

lemma mem_dictKeys_of_dictGet (m : List (String × String)) (k v : String)
    (h : dictGet m k = some v) : k ∈ dictKeys m := by
  induction m with
  | nil => simp [dictGet] at h
  | cons p m ih =>
      by_cases hp : p.1 = k
      · simp [dictKeys, hp]
      · simp only [dictGet] at h
        rw [List.find?_cons_of_neg _ (by simpa using hp)] at h
        simp only [dictKeys, List.map_cons, List.mem_cons]
        exact Or.inr (ih h)

lemma processEvents_ok (title : String) (evs : List SectionEvent) :
    ∀ (b : Book) (total : GenerationStatistics), title ∈ dictKeys b.contents →
      processEvents b title total evs
        = (bookAppend b title (String.join (eventDeltas evs)),
           (eventUsages evs).foldl GenerationStatistics.add total, .ok) := by
  induction evs with
  | nil =>
      intro b total h
      simp [processEvents, eventDeltas, eventUsages, String.join, bookAppend_empty]
  | cons e evs ih =>
      intro b total h
      cases e with
      | usageReport s =>
          simpa [processEvents, eventDeltas, eventUsages] using ih b (total.add s) h
      | textDelta t =>
          have step : processEvents b title total (.textDelta t :: evs)
              = processEvents (bookAppend b title t) title total evs := by
            rw [show processEvents b title total (.textDelta t :: evs)
                  = (match update_content b title t with
                     | some b' => processEvents b' title total evs
                     | none => (b, total, .keyError)) from rfl,
              update_content_eq b title t h]
          rw [step, ih (bookAppend b title t) total (by rw [dictKeys_bookAppend]; exact h)]
          simp [eventDeltas, eventUsages, bookAppend_bookAppend, join_cons]

lemma runLeaves_append (chunksOf : String → ProviderStream)
    (l₁ l₂ : List (String × String)) :
    ∀ (b : Book) (total : GenerationStatistics),
      runLeaves chunksOf (l₁ ++ l₂) b total
        = match runLeaves chunksOf l₁ b total with
          | (b', t', .ok) => runLeaves chunksOf l₂ b' t'
          | r => r := by
  induction l₁ with
  | nil => intro b total; rfl
  | cons p l₁ ih =>
      intro b total
      obtain ⟨title, desc⟩ := p
      simp only [List.cons_append, runLeaves]
      cases hp : processEvents b title total
          (generate_section (chunksOf (title ++ ": " ++ desc))).1 with
      | mk b' r =>
        obtain ⟨t', out⟩ := r
        cases out with
        | ok =>
            by_cases hf : (generate_section (chunksOf (title ++ ": " ++ desc))).2
            · simp [hp, hf]
            · simp [hp, hf, ih]
        | genFailed => simp [hp]
        | keyError => simp [hp]

lemma stream_eq_runLeaves (chunksOf : String → ProviderStream)
    (s : JsonEntries) (b : Book) (total : GenerationStatistics) :
    stream_section_content chunksOf s b total
      = runLeaves chunksOf (leafSections s) b total := by
  induction s, b, total using stream_section_content.induct chunksOf with
  | case1 b total => rfl
  | case2 title rest b total desc gs b' t' hproc hfail =>
      simp only [stream_section_content, leafSections, runLeaves, hproc]
      rw [if_pos hfail, if_pos hfail]
  | case3 title rest b total desc gs b' t' hproc hfail ih =>
      simp only [stream_section_content, leafSections, runLeaves, hproc]
      rw [if_neg hfail, if_neg hfail]
      exact ih
  | case4 title rest b total desc gs hnotok =>
      simp only [stream_section_content, leafSections, runLeaves]
  | case5 title rest b total children b' t' hch ihch ihrest =>
      simp only [stream_section_content, leafSections]
      rw [runLeaves_append, ← ihch, hch]
      exact ihrest
  | case6 title rest b total children hnotok ihch =>
      simp only [stream_section_content, leafSections]
      rw [runLeaves_append, ← ihch]
      cases hs : stream_section_content chunksOf children b total with
      | mk b' r =>
        obtain ⟨t', out⟩ := r
        cases out with
        | ok => exact absurd hs (by intro h; exact hnotok b' t' h)
        | genFailed => simp [hs]
        | keyError => simp [hs]
  | case7 title rest b total n ih =>
      simpa only [stream_section_content, leafSections] using ih

lemma markdown_eq_join (contents : List (String × String)) (s : JsonEntries) :
    ∀ level : Nat,
      get_markdown_content contents s level
        = String.join ((docOrder s level).map (markdownSegment contents)) := by
  induction s using leafSections.induct with
  | case1 => intro level; rfl
  | case2 title desc rest ih =>
      intro level
      simp [get_markdown_content, docOrder, markdownSegment, join_cons, ih,
        String.append_empty, String.append_assoc]
  | case3 title n rest ih =>
      intro level
      simp [get_markdown_content, docOrder, markdownSegment, join_cons, ih,
        String.append_empty, String.append_assoc]
  | case4 title children rest ihch ih =>
      intro level
      simp [get_markdown_content, docOrder, markdownSegment, join_cons, join_append,
        ihch, ih, String.append_empty, String.append_assoc]

lemma foldl_bookAppend (title : String) (deltas : List String) :
    ∀ b : Book, deltas.foldl (fun bk δ => bookAppend bk title δ) b
      = bookAppend b title (String.join deltas) := by
  induction deltas with
  | nil => intro b; simp [String.join, bookAppend_empty]
  | cons d rest ih =>
      intro b
      simp only [List.foldl_cons, ih, bookAppend_bookAppend, join_cons]

lemma foldlM_update_content (title : String) (deltas : List String) :
    ∀ b : Book, title ∈ dictKeys b.contents →
      deltas.foldlM (fun bk δ => update_content bk title δ) b
        = some (deltas.foldl (fun bk δ => bookAppend bk title δ) b) := by
  induction deltas with
  | nil => intro b _; rfl
  | cons d rest ih =>
      intro b h
      rw [List.foldlM_cons, update_content_eq b title d h]
      simpa using ih (bookAppend b title d) (by rw [dictKeys_bookAppend]; exact h)

lemma dictGet_bookAppend (b : Book) (title x : String) :
    dictGet (bookAppend b title x).contents title
      = (dictGet b.contents title).map (fun s => s ++ x) := by
  simpa [bookAppend] using dictGet_map_update b.contents title (fun s => s ++ x)

lemma eventDeltas_append (l₁ l₂ : List SectionEvent) :
    eventDeltas (l₁ ++ l₂) = eventDeltas l₁ ++ eventDeltas l₂ :=
  List.filterMap_append l₁ l₂ _

lemma eventDeltas_generate_section (chunks : List Chunk) :
    eventDeltas (generate_section_events chunks) = chunks.filterMap chunkText := by
  induction chunks with
  | nil => rfl
  | cons c rest ih =>
      rw [generate_section_events, eventDeltas_append, eventDeltas_append, ih]
      cases hc : c.content with
      | none =>
          cases hx : c.x_groq with
          | none => simp [eventDeltas, List.filterMap_cons, chunkText, hc, hx]
          | some xg =>
              cases hu : xg.usage with
              | none => simp [eventDeltas, List.filterMap_cons, chunkText, hc, hx, hu]
              | some u => simp [eventDeltas, List.filterMap_cons, chunkText, hc, hx, hu]
      | some str =>
          by_cases hs : str = ""
          · cases hx : c.x_groq with
            | none => simp [eventDeltas, List.filterMap_cons, chunkText, hc, hx, hs]
            | some xg =>
                cases hu : xg.usage with
                | none => simp [eventDeltas, List.filterMap_cons, chunkText, hc, hx, hu, hs]
                | some u => simp [eventDeltas, List.filterMap_cons, chunkText, hc, hx, hu, hs]
          · cases hx : c.x_groq with
            | none => simp [eventDeltas, List.filterMap_cons, chunkText, hc, hx, hs]
            | some xg =>
                cases hu : xg.usage with
                | none => simp [eventDeltas, List.filterMap_cons, chunkText, hc, hx, hu, hs]
                | some u => simp [eventDeltas, List.filterMap_cons, chunkText, hc, hx, hu, hs]

/-- C1: during a generation run the orchestrator walk equals one
sequential section generation per leaf title, in depth-first insertion
order (internal nodes are only recursed into, never generated), and each
call's events are folded by appending every text delta to that title's
buffer and merging every usage report into the run-wide total. -/
theorem c1_orchestrator_walk (chunksOf : String → ProviderStream)
    (sections : JsonEntries) (b : Book) (total : GenerationStatistics) :
    stream_section_content chunksOf sections b total
      = runLeaves chunksOf (leafSections sections) b total ∧
    ∀ (b₀ : Book) (title : String) (t₀ : GenerationStatistics)
      (evs : List SectionEvent), title ∈ dictKeys b₀.contents →
      processEvents b₀ title t₀ evs
        = (bookAppend b₀ title (String.join (eventDeltas evs)),
           (eventUsages evs).foldl GenerationStatistics.add t₀, .ok) :=
  ⟨stream_eq_runLeaves chunksOf sections b total,
   fun b₀ title t₀ evs h => processEvents_ok title evs b₀ t₀ h⟩

/-- Witness for C1 at the example outline: an event sequence with two
deltas and one usage report folds into the expected buffer and total. -/
theorem c1_orchestrator_walk_witness :
    processEvents (Book.init egStructure) "A" (GenerationStatistics.new "Combined")
        [.textDelta "Hello ", .usageReport (statsOfUsage ⟨1, 2, 3, 4, 5⟩),
         .textDelta "world"]
      = (bookAppend (Book.init egStructure) "A" "Hello world",
         ⟨0 + 1, 0 + 2, 0 + 3, 0 + 4, 0 + 5, "Combined"⟩, .ok) := by
  have h := (c1_orchestrator_walk (fun _ => ⟨[], false⟩) egStructure
      (Book.init egStructure) (GenerationStatistics.new "Combined")).2
      (Book.init egStructure) "A" (GenerationStatistics.new "Combined")
      [.textDelta "Hello ", .usageReport (statsOfUsage ⟨1, 2, 3, 4, 5⟩),
       .textDelta "world"] (by decide)
  rw [h]
  rfl

/-- C2: building the Document allocates exactly one buffer per title of
the flattened tree (the key list is duplicate-free), the key set equals
the set of flattened titles, and every buffer is initialized empty. -/
theorem c2_build_buffers (s : JsonEntries) :
    (dictKeys (Book.init s).contents).Nodup ∧
    (∀ t, t ∈ dictKeys (Book.init s).contents ↔ t ∈ flatten_structure s) ∧
    (∀ p ∈ (Book.init s).contents, p.2 = "") :=
  book_init_contents s

/-- Witness for C2 at the example outline: "C" has a buffer and no buffer
holds a non-empty string. -/
theorem c2_build_buffers_witness :
    "C" ∈ dictKeys (Book.init egStructure).contents ∧
    ("C", "x") ∉ (Book.init egStructure).contents := by
  constructor
  · exact ((c2_build_buffers egStructure).2.1 "C").mpr (by decide)
  · intro hmem
    have h := (c2_build_buffers egStructure).2.2 _ hmem
    simp at h

/-- Counterexample for C3: a buffer holding `" "` is non-empty, yet the
serializer omits its title (`str.strip()` discards whitespace-only
buffers), refuting the claim that every non-empty buffer is emitted. -/
theorem c3_serialize_counterexample :
    ((update_content (Book.init (.cons "A" (.jstr "a") .nil)) "A" " ").map
        Book.markdown = some "") ∧
    ((update_content (Book.init (.cons "A" (.jstr "a") .nil)) "A" " ").bind
        (fun b => dictGet b.contents "A") = some " ") ∧
    (" " : String) ≠ "" := by
  refine ⟨rfl, rfl, by decide⟩

/-- C3 (amended): serialization equals the concatenation, in document
order, of one segment per title; a segment is empty whenever the buffer
strips to the empty string (empty or whitespace-only), and otherwise is a
heading of as many hash marks as the title's depth followed by the
buffer. -/
theorem c3_serialize_amended (contents : List (String × String))
    (s : JsonEntries) (level : ℕ) :
    get_markdown_content contents s level
      = String.join ((docOrder s level).map (markdownSegment contents)) :=
  markdown_eq_join contents s level

/-- C4: a sequence of appends to a title leaves that title's buffer equal
to the original contents followed by the concatenation of the deltas in
application order. -/
theorem c4_append_concat (b : Book) (title : String) (deltas : List String)
    (orig : String) (h : dictGet b.contents title = some orig) :
    ∃ b', deltas.foldlM (fun bk δ => update_content bk title δ) b = some b' ∧
      dictGet b'.contents title = some (orig ++ String.join deltas) := by
  have hmem := mem_dictKeys_of_dictGet b.contents title orig h
  refine ⟨bookAppend b title (String.join deltas), ?_, ?_⟩
  · rw [foldlM_update_content title deltas b hmem, foldl_bookAppend]
  · rw [dictGet_bookAppend, h]
    rfl

/-- Witness for C4: appending "Hello " then "world" to the buffer of "A"
yields "Hello world". -/
theorem c4_append_concat_witness :
    ∃ b', ["Hello ", "world"].foldlM (fun bk δ => update_content bk "A" δ)
        (Book.init (.cons "A" (.jstr "a") .nil)) = some b' ∧
      dictGet b'.contents "A" = some ("" ++ String.join ["Hello ", "world"]) :=
  c4_append_concat (Book.init (.cons "A" (.jstr "a") .nil)) "A"
    ["Hello ", "world"] "" (by decide)

/-- C5: when a leaf's generation raises `GenerationFailed` after its
delivered chunks were folded, the whole walk stops there: the run returns
the book and total accumulated through the failing leaf (prior leaves'
text and the failing leaf's partial text preserved, later leaves never
driven), and the preserved book still serializes by the document-order
segment rule. -/
theorem c5_failure_preserves (chunksOf : String → ProviderStream)
    (sections : JsonEntries) (l₁ l₂ : List (String × String)) (t d : String)
    (b : Book) (total : GenerationStatistics) (b₁ : Book)
    (t₁ : GenerationStatistics) (b₂ : Book) (t₂ : GenerationStatistics)
    (hsplit : leafSections sections = l₁ ++ (t, d) :: l₂)
    (h₁ : runLeaves chunksOf l₁ b total = (b₁, t₁, .ok))
    (hfail : (chunksOf (t ++ ": " ++ d)).fails = true)
    (h₂ : processEvents b₁ t t₁ (generate_section (chunksOf (t ++ ": " ++ d))).1
            = (b₂, t₂, .ok)) :
    stream_section_content chunksOf sections b total = (b₂, t₂, .genFailed) ∧
    Book.markdown b₂
      = String.join ((docOrder b₂.structure' 1).map (markdownSegment b₂.contents)) := by
  constructor
  · rw [stream_eq_runLeaves, hsplit, runLeaves_append, h₁]
    simp only [runLeaves, h₂]
    have hf : (generate_section (chunksOf (t ++ ": " ++ d))).2 = true := hfail
    rw [if_pos hf]
  · exact markdown_eq_join b₂.contents b₂.structure' 1

/-- Witness for C5, the specification's scenario: leaf "C" fails after
emitting "partial"; the run ends in the failure outcome, C's buffer is
exactly "partial", D was never generated, and the serialized text still
contains both A's text and C's partial text. -/
theorem c5_failure_preserves_witness :
    stream_section_content egChunksOf egStructure (Book.init egStructure)
        (GenerationStatistics.new "Combined")
      = (⟨egStructure, [("A", "hello"), ("B", ""), ("C", "partial"), ("D", "")]⟩,
         GenerationStatistics.new "Combined", .genFailed) ∧
    dictGet [("A", "hello"), ("B", ""), ("C", "partial"), ("D", "")] "C"
      = some "partial" ∧
    Book.markdown ⟨egStructure, [("A", "hello"), ("B", ""), ("C", "partial"), ("D", "")]⟩
      = "# A\nhello\n\n## C\npartial\n\n" := by
  refine ⟨(c5_failure_preserves egChunksOf egStructure [("A", "a")] [("D", "d")]
      "C" "c" (Book.init egStructure) (GenerationStatistics.new "Combined")
      ⟨egStructure, [("A", "hello"), ("B", ""), ("C", ""), ("D", "")]⟩
      (GenerationStatistics.new "Combined")
      ⟨egStructure, [("A", "hello"), ("B", ""), ("C", "partial"), ("D", "")]⟩
      (GenerationStatistics.new "Combined")
      (by decide) (by decide) (by decide) (by decide)).1, by decide, by decide⟩

/-- Counterexample for C6: a payload that is valid JSON but a bare string
reaches `Book.__init__` and raises an uncaught `AttributeError` — not the
caught-`JSONDecodeError` path the claim calls `StructureDecodeError`. -/
theorem c6_decode_counterexample :
    generate_book_decode (some (Json.jstr "not an outline"))
        = DecodeOutcome.attributeError ∧
    DecodeOutcome.attributeError ≠ DecodeOutcome.structureDecodeError := by
  refine ⟨rfl, by intro h; cases h⟩

/-- C6 (amended): invalid JSON fails through the caught decode-error path
and a valid JSON non-object payload fails with the uncaught attribute
error; in either case no Document is constructed — a Document arises
exactly from an object payload. -/
theorem c6_decode_amended (payload : Option Json) :
    (payload = none → generate_book_decode payload = .structureDecodeError) ∧
    (∀ j, payload = some j → (∀ e, j ≠ Json.jobj e) →
      generate_book_decode payload = .attributeError) ∧
    (∀ e, payload = some (.jobj e) →
      generate_book_decode payload = .decoded (Book.init e)) ∧
    (∀ bk, generate_book_decode payload = .decoded bk →
      ∃ e, payload = some (.jobj e) ∧ bk = Book.init e) := by
  refine ⟨fun h => by rw [h]; rfl, fun j hj hne => ?_, fun e he => by rw [he]; rfl,
    fun bk hbk => ?_⟩
  · subst hj
    cases j with
    | jstr s => rfl
    | jnum n => rfl
    | jobj en => exact absurd rfl (hne en)
  · cases payload with
    | none => simp [generate_book_decode] at hbk
    | some j =>
        cases j with
        | jstr s => simp [generate_book_decode] at hbk
        | jnum n => simp [generate_book_decode] at hbk
        | jobj e =>
            simp only [generate_book_decode, DecodeOutcome.decoded.injEq] at hbk
            exact ⟨e, rfl, hbk.symm⟩

/-- Witness for C6 (amended) at three concrete payloads: invalid JSON, a
bare number, and the empty object. -/
theorem c6_decode_amended_witness :
    generate_book_decode none = DecodeOutcome.structureDecodeError ∧
    generate_book_decode (some (Json.jnum 5)) = DecodeOutcome.attributeError ∧
    generate_book_decode (some (Json.jobj .nil))
      = DecodeOutcome.decoded (Book.init .nil) :=
  ⟨(c6_decode_amended none).1 rfl,
   (c6_decode_amended (some (Json.jnum 5))).2.1 (Json.jnum 5) rfl
     (fun _ h => Json.noConfusion h),
   (c6_decode_amended (some (Json.jobj .nil))).2.2.1 .nil rfl⟩

/-- C7: the derived input speed is exactly 0 when the input-time field is
0 (for any token count, with no division error) and tokens divided by
time otherwise; likewise for the output speed. -/
theorem c7_speed_guard (s : GenerationStatistics) :
    (s.input_time = 0 → s.get_input_speed = 0) ∧
    (s.input_time ≠ 0 → s.get_input_speed = (s.input_tokens : ℚ) / s.input_time) ∧
    (s.output_time = 0 → s.get_output_speed = 0) ∧
    (s.output_time ≠ 0 → s.get_output_speed = (s.output_tokens : ℚ) / s.output_time) := by
  unfold GenerationStatistics.get_input_speed GenerationStatistics.get_output_speed
  exact ⟨fun h => by simp [h], fun h => by simp [h],
    fun h => by simp [h], fun h => by simp [h]⟩

/-- Witness for C7: a record with zero input time but five input tokens
has input speed 0, and its output speed is the ordinary quotient. -/
theorem c7_speed_guard_witness :
    GenerationStatistics.get_input_speed ⟨0, 2, 5, 7, 3, "m"⟩ = 0 ∧
    GenerationStatistics.get_output_speed ⟨0, 2, 5, 7, 3, "m"⟩ = 7 / 2 := by
  have h := c7_speed_guard ⟨0, 2, 5, 7, 3, "m"⟩
  refine ⟨h.1 rfl, ?_⟩
  rw [h.2.2.2 (by norm_num)]
  norm_num

lemma addB64_comm (x y : B64) : addB64 x y = addB64 y x := by
  unfold addB64
  rw [min_comm y.e x.e,
    Nat.add_comm (y.m * 2 ^ (y.e - min x.e y.e).toNat)
      (x.m * 2 ^ (x.e - min x.e y.e).toNat)]

/-- Counterexample for C8: with the time fields at their source binary64
precision, merging the records carrying the doubles nearest 0.1, 0.2 and
0.3 under the two groupings yields input-time totals one unit in the last
place apart (`5404319552844596 * 2^-53` versus `5404319552844595 * 2^-53`,
i.e. Python's `(0.1+0.2)+0.3 != 0.1+(0.2+0.3)`), so the totals are not
independent of grouping. -/
theorem c8_merge_counterexample :
    ((egStatA.add egStatB).add egStatC).numerics
        ≠ (egStatA.add (egStatB.add egStatC)).numerics ∧
    ((egStatA.add egStatB).add egStatC).input_time = ⟨5404319552844596, -53⟩ ∧
    (egStatA.add (egStatB.add egStatC)).input_time = ⟨5404319552844595, -53⟩ := by
  refine ⟨by decide, by decide, by decide⟩

/-- C8 (amended): merging binary64-precision statistics records is
commutative on all five numeric fields and associative on the two integer
token fields; associativity on the float time fields fails in general by
rounding (see the counterexample), so only the token totals are
independent of grouping. -/
theorem c8_merge_amended (a b c : GenerationStatisticsB64) :
    (a.add b).numerics = (b.add a).numerics ∧
    ((a.add b).add c).input_tokens = (a.add (b.add c)).input_tokens ∧
    ((a.add b).add c).output_tokens = (a.add (b.add c)).output_tokens := by
  unfold GenerationStatisticsB64.add GenerationStatisticsB64.numerics
  exact ⟨by simp [addB64_comm, Nat.add_comm], by simp [Nat.add_assoc],
    by simp [Nat.add_assoc]⟩

/-- C9: the section generator emits no empty text delta — chunks with
absent or empty content are dropped — and the deltas it emits are exactly
the non-empty chunk contents in arrival order. -/
theorem c9_no_empty_deltas (chunks : List Chunk) :
    (∀ s, SectionEvent.textDelta s ∈ generate_section_events chunks → s ≠ "") ∧
    eventDeltas (generate_section_events chunks) = chunks.filterMap chunkText := by
  refine ⟨fun s hs => ?_, eventDeltas_generate_section chunks⟩
  have h2 : s ∈ eventDeltas (generate_section_events chunks) :=
    List.mem_filterMap.2 ⟨_, hs, rfl⟩
  rw [eventDeltas_generate_section] at h2
  obtain ⟨c, _, hct⟩ := List.mem_filterMap.1 h2
  unfold chunkText at hct
  cases hcc : c.content with
  | none => rw [hcc] at hct; cases hct
  | some str =>
      rw [hcc] at hct
      replace hct : (if str ≠ "" then some str else none) = some s := hct
      by_cases hstr : str = ""
      · rw [if_neg (not_not_intro hstr)] at hct; cases hct
      · rw [if_pos hstr] at hct
        cases hct
        exact hstr

/-- Witness for C9: of three chunks — content "hi", empty content, and a
usage-only chunk — only "hi" is emitted as a delta. -/
theorem c9_no_empty_deltas_witness :
    ("hi" : String) ≠ "" ∧
    eventDeltas (generate_section_events
        [⟨some "hi", none⟩, ⟨some "", none⟩, ⟨none, some ⟨some ⟨1, 2, 3, 4, 5⟩⟩⟩])
      = ["hi"] := by
  refine ⟨(c9_no_empty_deltas
      [⟨some "hi", none⟩, ⟨some "", none⟩, ⟨none, some ⟨some ⟨1, 2, 3, 4, 5⟩⟩⟩]).1
      "hi" (by decide), by decide⟩

/-- C10: a title occurring at two tree positions still gets a single
buffer (the key list, being duplicate-free, counts it once), and the
serializer renders, at every position of that title, a segment whose body
is that one shared buffer — appends under the title alias across the
positions. -/
theorem c10_duplicate_alias (s : JsonEntries) (t : String)
    (hdup : 1 < (flatten_structure s).count t) :
    (dictKeys (Book.init s).contents).count t = 1 ∧
    ∀ contents : List (String × String),
      get_markdown_content contents s 1
        = String.join ((docOrder s 1).map (markdownSegment contents)) ∧
      ∀ level : ℕ, markdownSegment contents (t, level)
        = if pyStrip (dictGetD contents t) ≠ "" then
            String.mk (List.replicate level '#') ++ " " ++ t ++ "\n" ++
              dictGetD contents t ++ "\n\n"
          else "" := by
  constructor
  · have h := book_init_contents s
    have hmem : t ∈ dictKeys (Book.init s).contents :=
      (h.2.1 t).mpr (List.count_pos_iff.mp (by omega))
    exact List.count_eq_one_of_mem h.1 hmem
  · exact fun contents => ⟨markdown_eq_join contents s 1, fun level => rfl⟩

/-- Witness for C10: "A" appears at two positions of `dupStructure`, has
a single buffer, and after one append both positions render the same
content (at their respective depths). -/
theorem c10_duplicate_alias_witness :
    (dictKeys (Book.init dupStructure).contents).count "A" = 1 ∧
    get_markdown_content [("A", "hi"), ("B", "")] dupStructure 1
      = "# A\nhi\n\n## A\nhi\n\n" := by
  refine ⟨(c10_duplicate_alias dupStructure "A" (by decide)).1, by decide⟩
